import Mathlib

/-!
Verification of the Anthropic manifold pipeline
(`examples/pipelines/providers/anthropic_manifold_pipeline.py`).

The development shallowly embeds the pipeline's message normalization,
payload construction, non-streaming completion and streaming event loop.
Python dictionaries that the code subscripts dynamically are modelled as a
small JSON value type; fallible Python code is modelled with `Except` over
an explicit Python-error type; the `tiktoken` tokenizer is an uninterpreted
pure function `String → Nat` passed as a parameter.
-/

namespace AnthropicPipeline

/-- Python exception values that the pipeline's code can raise, with the
string that `str(e)` would produce where it matters. -/
inductive PyErr where
  | valueError (msg : String)
  | keyError (key : String)
  | typeError (msg : String)
  | indexError (msg : String)
  | jsonDecodeError (msg : String)
  /-- `raise Exception(f"Error: {status_code} - {text}")` at a non-success
  HTTP status; this is the spec's `ProviderError{status, body}`. -/
  | providerError (status : Nat) (body : String)
deriving DecidableEq

/-- The string `str(e)` interpolated by `f"Error: {e}"` in `pipe`. -/
def PyErr.pyStr : PyErr → String
  | .valueError m => m
  | .keyError k => "'" ++ k ++ "'"
  | .typeError m => m
  | .indexError m => m
  | .jsonDecodeError m => m
  | .providerError st body => "Error: " ++ toString st ++ " - " ++ body

/-- JSON values: results of `json.loads`, values stored in the request
`body` dict, and response bodies. -/
inductive JValue where
  | null
  | bool (b : Bool)
  | num (q : ℚ)
  | str (s : String)
  | arr (xs : List JValue)
  | obj (fields : List (String × JValue))

/-- Python truthiness of a JSON value (`if v:`). -/
def JValue.truthy : JValue → Bool
  | .null => false
  | .bool b => b
  | .num q => decide (q ≠ 0)
  | .str s => !s.data.isEmpty
  | .arr xs => !xs.isEmpty
  | .obj fs => !fs.isEmpty

/-- Python `v == s` for a string literal `s`: true only for an equal string,
`False` (no error) for any other JSON value. -/
def JValue.isStr : JValue → String → Bool
  | .str t, s => t == s
  | _, _ => false

/-- Python string subscript `v[k]`: field access on a dict, `KeyError` on a
missing key, `TypeError` on every non-dict value. -/
def JValue.subscriptStr : JValue → String → Except PyErr JValue
  | .obj fs, k =>
    match fs.lookup k with
    | some v => .ok v
    | none => .error (.keyError k)
  | .arr _, _ => .error (.typeError "list indices must be integers or slices, not str")
  | .str _, _ => .error (.typeError "string indices must be integers")
  | .num _, _ => .error (.typeError "value is not subscriptable")
  | .bool _, _ => .error (.typeError "value is not subscriptable")
  | .null, _ => .error (.typeError "value is not subscriptable")

/-- Python integer subscript `v[i]`. -/
def JValue.subscriptNat : JValue → Nat → Except PyErr JValue
  | .arr xs, i =>
    match xs.get? i with
    | some v => .ok v
    | none => .error (.indexError "list index out of range")
  | .str s, i =>
    match s.data.get? i with
    | some c => .ok (.str (String.mk [c]))
    | none => .error (.indexError "string index out of range")
  | .obj _, i => .error (.keyError (toString i))
  | _, _ => .error (.typeError "value is not subscriptable")

/-- Is `k` a (not necessarily proper) infix of `hay`? Used for Python's
substring containment `k in s`. -/
def hasSub (k : List Char) : List Char → Bool
  | [] => k.isEmpty
  | c :: t => k.isPrefixOf (c :: t) || hasSub k t

/-- Python `k in v` for a string `k`: key containment on a dict, element
containment on a list, substring containment on a string, `TypeError`
otherwise. -/
def JValue.containsKey : JValue → String → Except PyErr Bool
  | .obj fs, k => .ok (fs.any (fun p => p.1 == k))
  | .arr xs, k => .ok (xs.any (fun v => v.isStr k))
  | .str s, k => .ok (hasSub k.data s.data)
  | .null, _ => .error (.typeError "argument of type NoneType is not iterable")
  | .bool _, _ => .error (.typeError "argument of type bool is not iterable")
  | .num _, _ => .error (.typeError "argument of type number is not iterable")

/-- The options dict (`body` argument of `pipe`): string keys to JSON
values, unique keys, modelled as an association list. -/
abbrev Dict := List (String × JValue)

/-- `body.get(k, dflt)`. -/
def Dict.get (d : Dict) (k : String) (dflt : JValue) : JValue :=
  (List.lookup k d).getD dflt

/-- The in-place effect of `for key in ["user", "chat_id", "title"]:
body.pop(key, None)` at the top of `pipe`. -/
def popKeys (d : Dict) : Dict :=
  d.filter (fun p => !(p.1 == "user" || p.1 == "chat_id" || p.1 == "title"))

/-- One entry of a message's `content` list: a dict with a `"type"` tag, a
`"text"` field (read only when the tag is `"text"`), and the
`"image_url": {"url": ...}` field (read only when the tag is
`"image_url"`). -/
structure Item where
  type : String
  text : String := ""
  imageUrl : String := ""
deriving DecidableEq

/-- A message's `content`: either a plain string or a list of parts. -/
inductive Content where
  | str (s : String)
  | parts (items : List Item)
deriving DecidableEq

/-- An upstream chat message. -/
structure Message where
  role : String
  content : Content
deriving DecidableEq

/-- A normalized content part in the provider's wire format: a text block
(with or without `cache_control`), an inline base64 image, or a
URL-sourced image. -/
inductive NPart where
  | text (t : String) (cacheControl : Bool)
  | imageB64 (mediaType : String) (data : String)
  | imageUrl (url : String)
deriving DecidableEq

/-- A normalized message (`{"role": ..., "content": [...]}`). -/
structure NMessage where
  role : String
  content : List NPart
deriving DecidableEq

/-- Split a character list at the first occurrence of `sep`:
`some (before, after)`, or `none` when `sep` does not occur.
Mirrors Python's `s.split(sep, 1)` succeeding with two pieces. -/
def splitFirst (sep : Char) : List Char → Option (List Char × List Char)
  | [] => none
  | c :: cs =>
    if c = sep then some ([], cs)
    else
      match splitFirst sep cs with
      | some (a, b) => some (c :: a, b)
      | none => none

/-- The characters of the literal `"data:image"` tested by
`image_data["url"].startswith("data:image")`. -/
def dataImagePrefix : List Char := "data:image".data

/-- `mime_type.split(":")[1].split(";")[0]`: the segment between the first
and second colon, cut at its first semicolon.  The `mime` argument always
contains a colon here because `process_image` only calls this under the
`startswith("data:image")` guard; the fallback `""` is unreachable. -/
def mediaTypeOf (mime : List Char) : String :=
  match splitFirst ':' mime with
  | some (_, rest) =>
    let seg := match splitFirst ':' rest with
      | some (a, _) => a
      | none => rest
    let mt := match splitFirst ';' seg with
      | some (a, _) => a
      | none => seg
    String.mk mt
  | none => ""

/-- `Pipeline.process_image`: a `data:image...` URI is split at its first
comma into mime prefix and base64 payload (`split(",", 1)`; with no comma
the two-name unpacking raises `ValueError`); any other URL becomes a
URL-sourced image block. -/
def process_image (url : String) : Except PyErr NPart :=
  if dataImagePrefix.isPrefixOf url.data then
    match splitFirst ',' url.data with
    | some (mime, b64) => .ok (.imageB64 (mediaTypeOf mime) (String.mk b64))
    | none => .error (.valueError "not enough values to unpack (expected 2, got 1)")
  else
    .ok (.imageUrl url)

/-- `len(processed_image["source"]["data"]) * 3 / 4` for a base64 image
block, `0` otherwise (exact rational arithmetic; the Python floats are
exact here since the payload length is far below `2^50`). -/
def sizeOfPart : NPart → ℚ
  | .imageB64 _ d => (d.data.length : ℚ) * 3 / 4
  | _ => 0

/-- The `100 * 1024 * 1024` bound of the total-image-size check. -/
def IMAGE_SIZE_LIMIT : ℚ := 100 * 1024 * 1024

/-- The `ValueError` raised when a sixth image is encountered. -/
def countErr : PyErr := .valueError "Maximum of 5 images per API call exceeded"

/-- The `ValueError` raised when the running image size exceeds the cap. -/
def sizeErr : PyErr := .valueError "Total size of images exceeds 100 MB limit"

/-- The spec's `ImageLimitExceeded`: the computation aborted with one of the
two image-limit `ValueError`s. -/
def failsWithImageLimit {α : Type} (r : Except PyErr α) : Prop :=
  r = .error countErr ∨ r = .error sizeErr

/-- The cache-eligibility test of `pipe`: the target model is the one
legacy caching-capable id and the tokenizer reports at least 1024 tokens. -/
def cacheEligible (tok : String → Nat) (model_id : String) (text : String) : Bool :=
  model_id == "claude-3-5-sonnet-20241022" && decide (1024 ≤ tok text)

/-- One iteration of the `for item in message["content"]` loop: given the
running image count and running estimated size, produce the appended part
(if any) and the updated counters, or abort with the error the Python code
raises at this item. -/
def processItem (tok : String → Nat) (model_id : String) (it : Item) (ic : Nat)
    (ts : ℚ) : Except PyErr (Option NPart × Nat × ℚ) :=
  if it.type = "text" then
    .ok (some (.text it.text (cacheEligible tok model_id it.text)), ic, ts)
  else if it.type = "image_url" then
    if 5 ≤ ic then .error countErr
    else
      match process_image it.imageUrl with
      | .error e => .error e
      | .ok p =>
        let ts' := ts + sizeOfPart p
        if IMAGE_SIZE_LIMIT < ts' then .error sizeErr
        else .ok (some p, ic + 1, ts')
  else
    .ok (none, ic, ts)

/-- The item loop over a whole `content` list, threading the image counters
in source order. -/
def processItems (tok : String → Nat) (model_id : String) :
    List Item → Nat → ℚ → Except PyErr (List NPart × Nat × ℚ)
  | [], ic, ts => .ok ([], ic, ts)
  | it :: rest, ic, ts =>
    match processItem tok model_id it ic ts with
    | .error e => .error e
    | .ok (po, ic', ts') =>
      match processItems tok model_id rest ic' ts' with
      | .error e => .error e
      | .ok (ps, ic'', ts'') => .ok (po.toList ++ ps, ic'', ts'')

/-- One iteration of the `for message in messages` loop: list content goes
through the item loop, any other content is wrapped as a single text block
(with the same cache-eligibility test). -/
def processMessage (tok : String → Nat) (model_id : String) (m : Message)
    (ic : Nat) (ts : ℚ) : Except PyErr (NMessage × Nat × ℚ) :=
  match m.content with
  | .parts items =>
    match processItems tok model_id items ic ts with
    | .error e => .error e
    | .ok (ps, ic', ts') => .ok (⟨m.role, ps⟩, ic', ts')
  | .str s => .ok (⟨m.role, [.text s (cacheEligible tok model_id s)]⟩, ic, ts)

/-- The message loop of `pipe` (after the system message was popped),
starting from image count `ic` and running size `ts` (the invocation starts
them at `0`). -/
def processMessages (tok : String → Nat) (model_id : String) :
    List Message → Nat → ℚ → Except PyErr (List NMessage × Nat × ℚ)
  | [], ic, ts => .ok ([], ic, ts)
  | m :: rest, ic, ts =>
    match processMessage tok model_id m ic ts with
    | .error e => .error e
    | .ok (nm, ic', ts') =>
      match processMessages tok model_id rest ic' ts' with
      | .error e => .error e
      | .ok (nms, ic'', ts'') => .ok (nm :: nms, ic'', ts'')

/-- Number of `image_url` parts contributed by one item. -/
def itemCount (it : Item) : Nat :=
  if it.type = "image_url" then 1 else 0

/-- Estimated size contributed by one item: the base64-payload estimate of
its processed image for an `image_url` part, `0` otherwise. -/
def itemEstSize (it : Item) : ℚ :=
  if it.type = "image_url" then
    match process_image it.imageUrl with
    | .ok p => sizeOfPart p
    | .error _ => 0
  else 0

/-- Number of image parts in one message. -/
def msgCount (m : Message) : Nat :=
  match m.content with
  | .parts its => (its.map itemCount).sum
  | .str _ => 0

/-- Estimated image size of one message. -/
def msgSize (m : Message) : ℚ :=
  match m.content with
  | .parts its => (its.map itemEstSize).sum
  | .str _ => 0

/-- Total number of image parts in an input message list. -/
def imageCount (msgs : List Message) : Nat :=
  (msgs.map msgCount).sum

/-- Total estimated image size of an input message list. -/
def totalImageSize (msgs : List Message) : ℚ :=
  (msgs.map msgSize).sum

/-- A URL is well formed per the spec's data model when, if it is a
`data:image` URI, it contains the comma separating mime prefix from base64
payload. -/
def wfUrl (u : String) : Bool :=
  !(dataImagePrefix.isPrefixOf u.data) || (splitFirst ',' u.data).isSome

/-- Item well-formedness: image URLs satisfy `wfUrl`. -/
def wfItem (it : Item) : Bool :=
  if it.type = "image_url" then wfUrl it.imageUrl else true

/-- Message well-formedness. -/
def wfMessage (m : Message) : Bool :=
  match m.content with
  | .parts its => its.all wfItem
  | .str _ => true

/-- All image URLs in the input conform to the spec's data model. -/
def WFMessages (msgs : List Message) : Prop :=
  msgs.all wfMessage = true

/-- One server-sent event as seen by the loop body: `data` is the result of
`json.loads(event.data)`, with `none` standing for a body that raises
`json.JSONDecodeError`. -/
structure SSEEvent where
  data : Option JValue

/-- What the `try` block of the streaming loop does with one parsed event
body. -/
inductive EvAct where
  | emit (v : JValue)
  | skip
  | stop

/-- The body of the `try` block in `stream_response`: inspect
`data["type"]`, and for the two content events read the text to yield.
Each subscript can raise; the caller decides which exceptions are caught. -/
def eventAction (d : JValue) : Except PyErr EvAct :=
  match d.subscriptStr "type" with
  | .error e => .error e
  | .ok ty =>
    if ty.isStr "content_block_start" then
      match d.subscriptStr "content_block" with
      | .error e => .error e
      | .ok cb =>
        match cb.subscriptStr "text" with
        | .error e => .error e
        | .ok t => .ok (.emit t)
    else if ty.isStr "content_block_delta" then
      match d.subscriptStr "delta" with
      | .error e => .error e
      | .ok dl =>
        match dl.subscriptStr "text" with
        | .error e => .error e
        | .ok t => .ok (.emit t)
    else if ty.isStr "message_stop" then .ok .stop
    else .ok .skip

/-- The `for event in client.events()` loop: the values yielded in order,
paired with the exception (if any) with which the generator terminates.
`json.JSONDecodeError` (unparseable body) and `KeyError` (missing dict
field) are caught and logged, everything else escapes the loop. -/
def processEvents : List SSEEvent → List JValue × Option PyErr
  | [] => ([], none)
  | e :: rest =>
    match e.data with
    | none => processEvents rest
    | some d =>
      match eventAction d with
      | .ok (.emit v) =>
        let r := processEvents rest
        (v :: r.1, r.2)
      | .ok .skip => processEvents rest
      | .ok .stop => ([], none)
      | .error (.keyError _) => processEvents rest
      | .error err => ([], some err)

/-- The provider's HTTP answer to the single POST an invocation performs:
status code, raw text, parsed JSON body (`none` when `response.json()`
raises) and, on the streaming path, the server-sent events delivered. -/
structure HttpResponse where
  status : Nat
  text : String
  json : Option JValue
  events : List SSEEvent

/-- `Pipeline.stream_response` as observed by a consumer draining the
returned generator: on status 200 the event loop runs; otherwise the
generator raises the provider error on its first step. -/
def stream_response (resp : HttpResponse) : List JValue × Option PyErr :=
  if resp.status = 200 then processEvents resp.events
  else ([], some (.providerError resp.status resp.text))

/-- `Pipeline.get_completion`: on status 200 evaluate
`res["content"][0]["text"] if "content" in res and res["content"] else ""`
on the parsed body, otherwise raise the provider error. -/
def get_completion (resp : HttpResponse) : Except PyErr JValue :=
  if resp.status = 200 then
    match resp.json with
    | none => .error (.jsonDecodeError "Expecting value: line 1 column 1 (char 0)")
    | some res =>
      match res.containsKey "content" with
      | .error e => .error e
      | .ok hasKey =>
        let condE : Except PyErr Bool :=
          if hasKey then
            match res.subscriptStr "content" with
            | .error e => .error e
            | .ok v => .ok v.truthy
          else .ok false
        match condE with
        | .error e => .error e
        | .ok cond =>
          if cond then
            match res.subscriptStr "content" with
            | .error e => .error e
            | .ok v =>
              match v.subscriptNat 0 with
              | .error e => .error e
              | .ok first => first.subscriptStr "text"
          else .ok (.str "")
  else .error (.providerError resp.status resp.text)

/-- Modelled from the spec: `pop_system_message` lives in
`utils/pipelines/main.py`, which is not under `src/`.  Spec §4.1: "If the
first message has role `system`, remove it from the sequence and capture
its content as `systemText` (joined to a plain string if it was a
content-part sequence); otherwise `systemText` is absent." -/
def contentText : Content → String
  | .str s => s
  | .parts its => String.join ((its.filter (fun it => it.type == "text")).map Item.text)

/-- Modelled from the spec: `pop_system_message` from
`utils/pipelines/main.py` (not under `src/`), per spec §4.1 step 1: a
leading system message is removed and its content captured as the optional
system text; any other list is returned unchanged with no system text. -/
def pop_system_message : List Message → Option String × List Message
  | [] => (none, [])
  | m :: rest =>
    if m.role = "system" then (some (contentText m.content), rest)
    else (none, m :: rest)

/-- The request payload dict assembled by `pipe`. -/
structure Payload where
  model : String
  messages : List NMessage
  max_tokens : JValue
  temperature : JValue
  top_k : JValue
  top_p : JValue
  stop_sequences : JValue
  system : Option String
  stream : JValue

/-- Payload assembly inside `pipe`'s `try` block: pop the system message,
run the normalization loop (image counters start at 0), then build the
dict; the `system` key is spread in only when the popped system text is
truthy.  `body` here is the options dict after the key pops. -/
def buildPayload (tok : String → Nat) (model_id : String)
    (messages : List Message) (body : Dict) : Except PyErr Payload :=
  let sm := pop_system_message messages
  match processMessages tok model_id sm.2 0 0 with
  | .error e => .error e
  | .ok (pm, _, _) =>
    .ok
      { model := model_id
        messages := pm
        max_tokens := body.get "max_tokens" (.num 4096)
        temperature := body.get "temperature" (.num (8 / 10))
        top_k := body.get "top_k" (.num 40)
        top_p := body.get "top_p" (.num (9 / 10))
        stop_sequences := body.get "stop" (.arr [])
        system :=
          match sm.1 with
          | some s => if s = "" then none else some s
          | none => none
        stream := body.get "stream" (.bool false) }

/-- What `pipe` hands back to the host: a plain value (a result string, a
value extracted by `get_completion`, or the `"Error: ..."` string built by
the `except` clause), or the generator object created by calling
`stream_response` — whose body has not run yet. -/
inductive PipeRet where
  | val (v : JValue)
  | stream (p : Payload)

/-- `Pipeline.pipe`: pop the unnecessary keys from the options dict (an
in-place mutation of the caller's dict), then inside `try` build the
payload and dispatch on the truthiness of `body.get("stream", False)`.
The streaming branch merely creates the generator; the non-streaming
branch runs `get_completion`.  Any exception raised inside the `try` is
converted to the string `f"Error: {e}"`.  The single `resp` parameter is
the answer the provider would give to this invocation's one POST; the
first component of the result is the caller's options dict after the
mutation. -/
def pipe (tok : String → Nat) (user_message model_id : String)
    (messages : List Message) (body : Dict) (resp : HttpResponse) :
    Dict × PipeRet :=
  let body' := popKeys body
  let r : Except PyErr PipeRet :=
    match buildPayload tok model_id messages body' with
    | .error e => .error e
    | .ok payload =>
      if (body'.get "stream" (.bool false)).truthy then
        .ok (.stream payload)
      else
        match get_completion resp with
        | .error e => .error e
        | .ok v => .ok (.val v)
  (body',
    match r with
    | .ok ret => ret
    | .error e => .val (.str ("Error: " ++ e.pyStr)))

/-- Consuming what `pipe` returned: a plain value is read as is; a
returned generator is drained against the provider's response, yielding
the emitted fragments and the exception (if any) that escapes to the
consumer during the drain. -/
def drainRet (resp : HttpResponse) : PipeRet → List JValue × Option PyErr
  | .val v => ([v], none)
  | .stream _ => stream_response resp

/-- The normalized part that one item contributes, if any: a text block for
`"text"` items, the processed image for `"image_url"` items (when
processing succeeds), nothing for any other type tag. -/
def partOf (tok : String → Nat) (model_id : String) (it : Item) : Option NPart :=
  if it.type = "text" then some (.text it.text (cacheEligible tok model_id it.text))
  else if it.type = "image_url" then (process_image it.imageUrl).toOption
  else none

/-- The normalized form of one message when no limit aborts: list content
maps part-wise through `partOf`, string content wraps as one text block. -/
def nmsgOf (tok : String → Nat) (model_id : String) (m : Message) : NMessage :=
  match m.content with
  | .parts its => ⟨m.role, its.filterMap (partOf tok model_id)⟩
  | .str s => ⟨m.role, [.text s (cacheEligible tok model_id s)]⟩

/-- The kind of a well-formed stream event per the spec's event table: a
content event carrying a text fragment, the end-of-message signal, or an
event of some other type (to be ignored). -/
inductive EvKind where
  | frag (t : String)
  | stop
  | other

/-- Classification of a parsed event body by the shapes the event table
expects; `none` when the body is missing or not shaped as any table row. -/
def classifyD : JValue → Option EvKind
  | .obj fs =>
    match fs.lookup "type" with
    | some (.str ty) =>
      if ty = "content_block_start" then
        match fs.lookup "content_block" with
        | some (.obj cb) =>
          match cb.lookup "text" with
          | some (.str t) => some (.frag t)
          | _ => none
        | _ => none
      else if ty = "content_block_delta" then
        match fs.lookup "delta" with
        | some (.obj dl) =>
          match dl.lookup "text" with
          | some (.str t) => some (.frag t)
          | _ => none
        | _ => none
      else if ty = "message_stop" then some .stop
      else some .other
    | _ => none
  | _ => none

/-- Classification of a raw event. -/
def classify (e : SSEEvent) : Option EvKind :=
  match e.data with
  | some d => classifyD d
  | none => none

/-- The text fragments a well-formed stream carries, in order, up to the
first end-of-message signal: the reference "full response text" of the
stream, read off the events themselves. -/
def textsOf : List SSEEvent → List String
  | [] => []
  | e :: rest =>
    match classify e with
    | some (.frag t) => t :: textsOf rest
    | some .stop => []
    | some .other => textsOf rest
    | none => textsOf rest

/-- Every event of the stream is well formed per the event table. -/
def WFStream (s : List SSEEvent) : Prop :=
  s.all (fun e => (classify e).isSome) = true

/-! Concrete inputs used by witnesses and counterexamples. -/

/-- A stand-in tokenizer for concrete examples: the character count.  The
development treats the tokenizer as an uninterpreted pure function, so
every theorem quantifies over it; witnesses instantiate it with this. -/
def tokLen : String → Nat := fun s => s.data.length

/-- The synthetic event stream of the spec's §8 example. -/
def helloStream : List SSEEvent :=
  [ ⟨some (.obj [("type", .str "content_block_start"),
       ("content_block", .obj [("type", .str "text"), ("text", .str "Hello")])])⟩,
    ⟨some (.obj [("type", .str "content_block_delta"),
       ("delta", .obj [("type", .str "text_delta"), ("text", .str " world")])])⟩,
    ⟨some (.obj [("type", .str "message_stop")])⟩ ]

/-- `helloStream` with one malformed event inserted: its body parses as
JSON but is an array, so it has no `"type"` field. -/
def badStream : List SSEEvent :=
  [ ⟨some (.obj [("type", .str "content_block_start"),
       ("content_block", .obj [("type", .str "text"), ("text", .str "Hello")])])⟩,
    ⟨some (.arr [])⟩,
    ⟨some (.obj [("type", .str "content_block_delta"),
       ("delta", .obj [("type", .str "text_delta"), ("text", .str " world")])])⟩,
    ⟨some (.obj [("type", .str "message_stop")])⟩ ]

/-- A 1024-character text: any tokenizer valuing it at ≥ 1024 tokens (as
the character-count stand-in does) triggers the cache marker on the legacy
caching model. -/
def aText : String := String.mk (List.replicate 1024 'a')

/-- An options dict requesting streaming. -/
def bodyStream : Dict := [("stream", .bool true)]

/-- The payload `pipe` builds from an empty message list and empty options
dict for model `"m"`. -/
def payload0 : Payload :=
  { model := "m"
    messages := []
    max_tokens := .num 4096
    temperature := .num (8 / 10)
    top_k := .num 40
    top_p := .num (9 / 10)
    stop_sequences := .arr []
    system := none
    stream := .bool false }

/-- A single remote-URL image part. -/
def imgItem : Item := { type := "image_url", imageUrl := "http://x/a.png" }

/-- One message carrying six images — one over the count limit. -/
def msgs6 : List Message := [⟨"user", .parts (List.replicate 6 imgItem)⟩]

/-- A successful non-streaming response body with one text block. -/
def resp200 : HttpResponse :=
  ⟨200, "",
   some (.obj [("content", .arr [.obj [("type", .str "text"), ("text", .str "hi")]])]),
   []⟩

/-- A failed HTTP exchange. -/
def resp500 : HttpResponse := ⟨500, "Internal Server Error", none, []⟩

/-- A message list opening with a system message. -/
def msgs7 : List Message := [⟨"system", .str "be nice"⟩, ⟨"user", .str "hi"⟩]

/-- The payload `pipe` builds from `msgs7` with an empty options dict. -/
def payload7 : Payload :=
  { model := "m"
    messages := [⟨"user", [.text "hi" false]⟩]
    max_tokens := .num 4096
    temperature := .num (8 / 10)
    top_k := .num 40
    top_p := .num (9 / 10)
    stop_sequences := .arr []
    system := some "be nice"
    stream := .bool false }

/-! Helper lemmas. -/

theorem lookup_some_any {fs : List (String × JValue)} {k : String} {v : JValue}
    (h : fs.lookup k = some v) : fs.any (fun p => p.1 == k) = true := by
  induction fs with
  | nil => simp [List.lookup] at h
  | cons p rest ih =>
    obtain ⟨pk, pv⟩ := p
    by_cases hkp : k = pk
    · subst hkp
      simp [List.any_cons]
    · have hb : (k == pk) = false := beq_eq_false_iff_ne.mpr hkp
      simp only [List.lookup, hb] at h
      simp [List.any_cons, ih h]

theorem lookup_none_any {fs : List (String × JValue)} {k : String}
    (h : fs.lookup k = none) : fs.any (fun p => p.1 == k) = false := by
  induction fs with
  | nil => rfl
  | cons p rest ih =>
    obtain ⟨pk, pv⟩ := p
    by_cases hkp : k = pk
    · subst hkp
      simp [List.lookup] at h
    · have hb : (k == pk) = false := beq_eq_false_iff_ne.mpr hkp
      simp only [List.lookup, hb] at h
      have hb' : (pk == k) = false := beq_eq_false_iff_ne.mpr (fun hp => hkp hp.symm)
      simp [List.any_cons, hb', ih h]

theorem processItems_unrecognized_nil (tok : String → Nat) (model_id : String)
    (its : List Item) (ic : Nat) (ts : ℚ)
    (h : ∀ i ∈ its, i.type ≠ "text" ∧ i.type ≠ "image_url") :
    processItems tok model_id its ic ts = .ok ([], ic, ts) := by
  induction its with
  | nil => rfl
  | cons it rest ih =>
    obtain ⟨h1, h2⟩ := h it (List.mem_cons_self it rest)
    simp only [processItems, processItem, if_neg h1, if_neg h2,
      ih (fun i hi => h i (List.mem_cons_of_mem it hi))]
    rfl

theorem lookup_popKeys_popped (d : Dict) (k : String)
    (hk : k = "user" ∨ k = "chat_id" ∨ k = "title") :
    List.lookup k (popKeys d) = none := by
  induction d with
  | nil => rfl
  | cons p rest ih =>
    obtain ⟨pk, pv⟩ := p
    simp only [popKeys, List.filter_cons]
    by_cases hf : (!(pk == "user" || pk == "chat_id" || pk == "title")) = true
    · have hp : ¬(pk = "user" ∨ pk = "chat_id" ∨ pk = "title") := by
        simpa [not_or, and_assoc] using hf
      have hne : (k == pk) = false := by
        refine beq_eq_false_iff_ne.mpr fun hkp => hp ?_
        rcases hk with rfl | rfl | rfl
        · exact Or.inl hkp.symm
        · exact Or.inr (Or.inl hkp.symm)
        · exact Or.inr (Or.inr hkp.symm)
      simp only [if_pos hf, List.lookup, hne]
      exact ih
    · simp only [if_neg hf]
      exact ih

theorem lookup_popKeys_other (d : Dict) (k : String)
    (h1 : k ≠ "user") (h2 : k ≠ "chat_id") (h3 : k ≠ "title") :
    List.lookup k (popKeys d) = List.lookup k d := by
  induction d with
  | nil => rfl
  | cons p rest ih =>
    obtain ⟨pk, pv⟩ := p
    simp only [popKeys, List.filter_cons]
    by_cases hf : (!(pk == "user" || pk == "chat_id" || pk == "title")) = true
    · simp only [if_pos hf, List.lookup]
      cases hkp : (k == pk) with
      | true => rfl
      | false => exact ih
    · have hp : pk = "user" ∨ pk = "chat_id" ∨ pk = "title" := by
        by_contra hc
        push_neg at hc
        exact hf (by simp [hc.1, hc.2.1, hc.2.2])
      have hne : (k == pk) = false := by
        refine beq_eq_false_iff_ne.mpr fun hkp => ?_
        rcases hp with rfl | rfl | rfl
        · exact h1 hkp
        · exact h2 hkp
        · exact h3 hkp
      simp only [if_neg hf, List.lookup, hne]
      exact ih

theorem eventAction_frag {d : JValue} {t : String}
    (h : classifyD d = some (.frag t)) : eventAction d = .ok (.emit (.str t)) := by
  cases d with
  | obj fs =>
    rcases hty : fs.lookup "type" with _ | v
    · simp [classifyD, hty] at h
    · cases v with
      | str ty =>
        by_cases h1 : ty = "content_block_start"
        · subst h1
          rcases hcb : fs.lookup "content_block" with _ | cbv
          · simp [classifyD, hty, hcb] at h
          · cases cbv with
            | obj cb =>
              rcases htx : cb.lookup "text" with _ | tv
              · simp [classifyD, hty, hcb, htx] at h
              · cases tv with
                | str t0 =>
                  simp [classifyD, hty, hcb, htx] at h
                  subst h
                  simp [eventAction, JValue.subscriptStr, hty, hcb, htx, JValue.isStr]
                | null => simp [classifyD, hty, hcb, htx] at h
                | bool b => simp [classifyD, hty, hcb, htx] at h
                | num q => simp [classifyD, hty, hcb, htx] at h
                | arr xs => simp [classifyD, hty, hcb, htx] at h
                | obj o => simp [classifyD, hty, hcb, htx] at h
            | null => simp [classifyD, hty, hcb] at h
            | bool b => simp [classifyD, hty, hcb] at h
            | num q => simp [classifyD, hty, hcb] at h
            | arr xs => simp [classifyD, hty, hcb] at h
            | str s => simp [classifyD, hty, hcb] at h
        · by_cases h2 : ty = "content_block_delta"
          · subst h2
            rcases hdl : fs.lookup "delta" with _ | dlv
            · simp [classifyD, hty, h1, hdl] at h
            · cases dlv with
              | obj dl =>
                rcases htx : dl.lookup "text" with _ | tv
                · simp [classifyD, hty, h1, hdl, htx] at h
                · cases tv with
                  | str t0 =>
                    simp [classifyD, hty, h1, hdl, htx] at h
                    subst h
                    simp [eventAction, JValue.subscriptStr, hty, hdl, htx,
                      JValue.isStr, h1]
                  | null => simp [classifyD, hty, h1, hdl, htx] at h
                  | bool b => simp [classifyD, hty, h1, hdl, htx] at h
                  | num q => simp [classifyD, hty, h1, hdl, htx] at h
                  | arr xs => simp [classifyD, hty, h1, hdl, htx] at h
                  | obj o => simp [classifyD, hty, h1, hdl, htx] at h
              | null => simp [classifyD, hty, h1, hdl] at h
              | bool b => simp [classifyD, hty, h1, hdl] at h
              | num q => simp [classifyD, hty, h1, hdl] at h
              | arr xs => simp [classifyD, hty, h1, hdl] at h
              | str s => simp [classifyD, hty, h1, hdl] at h
          · by_cases h3 : ty = "message_stop" <;> simp [classifyD, hty, h1, h2, h3] at h
      | null => simp [classifyD, hty] at h
      | bool b => simp [classifyD, hty] at h
      | num q => simp [classifyD, hty] at h
      | arr xs => simp [classifyD, hty] at h
      | obj o => simp [classifyD, hty] at h
  | null => simp [classifyD] at h
  | bool b => simp [classifyD] at h
  | num q => simp [classifyD] at h
  | str s => simp [classifyD] at h
  | arr xs => simp [classifyD] at h

theorem eventAction_stop {d : JValue} (h : classifyD d = some .stop) :
    eventAction d = .ok .stop := by
  cases d with
  | obj fs =>
    rcases hty : fs.lookup "type" with _ | v
    · simp [classifyD, hty] at h
    · cases v with
      | str ty =>
        by_cases h1 : ty = "content_block_start"
        · subst h1
          rcases hcb : fs.lookup "content_block" with _ | cbv
          · simp [classifyD, hty, hcb] at h
          · cases cbv with
            | obj cb =>
              rcases htx : cb.lookup "text" with _ | tv
              · simp [classifyD, hty, hcb, htx] at h
              · cases tv <;> simp [classifyD, hty, hcb, htx] at h
            | null => simp [classifyD, hty, hcb] at h
            | bool b => simp [classifyD, hty, hcb] at h
            | num q => simp [classifyD, hty, hcb] at h
            | arr xs => simp [classifyD, hty, hcb] at h
            | str s => simp [classifyD, hty, hcb] at h
        · by_cases h2 : ty = "content_block_delta"
          · subst h2
            rcases hdl : fs.lookup "delta" with _ | dlv
            · simp [classifyD, hty, h1, hdl] at h
            · cases dlv with
              | obj dl =>
                rcases htx : dl.lookup "text" with _ | tv
                · simp [classifyD, hty, h1, hdl, htx] at h
                · cases tv <;> simp [classifyD, hty, h1, hdl, htx] at h
              | null => simp [classifyD, hty, h1, hdl] at h
              | bool b => simp [classifyD, hty, h1, hdl] at h
              | num q => simp [classifyD, hty, h1, hdl] at h
              | arr xs => simp [classifyD, hty, h1, hdl] at h
              | str s => simp [classifyD, hty, h1, hdl] at h
          · by_cases h3 : ty = "message_stop"
            · subst h3
              simp [eventAction, JValue.subscriptStr, hty, JValue.isStr, h1, h2]
            · simp [classifyD, hty, h1, h2, h3] at h
      | null => simp [classifyD, hty] at h
      | bool b => simp [classifyD, hty] at h
      | num q => simp [classifyD, hty] at h
      | arr xs => simp [classifyD, hty] at h
      | obj o => simp [classifyD, hty] at h
  | null => simp [classifyD] at h
  | bool b => simp [classifyD] at h
  | num q => simp [classifyD] at h
  | str s => simp [classifyD] at h
  | arr xs => simp [classifyD] at h

theorem eventAction_other {d : JValue} (h : classifyD d = some .other) :
    eventAction d = .ok .skip := by
  cases d with
  | obj fs =>
    rcases hty : fs.lookup "type" with _ | v
    · simp [classifyD, hty] at h
    · cases v with
      | str ty =>
        by_cases h1 : ty = "content_block_start"
        · subst h1
          rcases hcb : fs.lookup "content_block" with _ | cbv
          · simp [classifyD, hty, hcb] at h
          · cases cbv with
            | obj cb =>
              rcases htx : cb.lookup "text" with _ | tv
              · simp [classifyD, hty, hcb, htx] at h
              · cases tv <;> simp [classifyD, hty, hcb, htx] at h
            | null => simp [classifyD, hty, hcb] at h
            | bool b => simp [classifyD, hty, hcb] at h
            | num q => simp [classifyD, hty, hcb] at h
            | arr xs => simp [classifyD, hty, hcb] at h
            | str s => simp [classifyD, hty, hcb] at h
        · by_cases h2 : ty = "content_block_delta"
          · subst h2
            rcases hdl : fs.lookup "delta" with _ | dlv
            · simp [classifyD, hty, h1, hdl] at h
            · cases dlv with
              | obj dl =>
                rcases htx : dl.lookup "text" with _ | tv
                · simp [classifyD, hty, h1, hdl, htx] at h
                · cases tv <;> simp [classifyD, hty, h1, hdl, htx] at h
              | null => simp [classifyD, hty, h1, hdl] at h
              | bool b => simp [classifyD, hty, h1, hdl] at h
              | num q => simp [classifyD, hty, h1, hdl] at h
              | arr xs => simp [classifyD, hty, h1, hdl] at h
              | str s => simp [classifyD, hty, h1, hdl] at h
          · by_cases h3 : ty = "message_stop"
            · simp [classifyD, hty, h1, h2, h3] at h
            · simp [eventAction, JValue.subscriptStr, hty, JValue.isStr, h1, h2, h3]
      | null => simp [classifyD, hty] at h
      | bool b => simp [classifyD, hty] at h
      | num q => simp [classifyD, hty] at h
      | arr xs => simp [classifyD, hty] at h
      | obj o => simp [classifyD, hty] at h
  | null => simp [classifyD] at h
  | bool b => simp [classifyD] at h
  | num q => simp [classifyD] at h
  | str s => simp [classifyD] at h
  | arr xs => simp [classifyD] at h


/-! Claim theorems. -/

/-- C3: a text part's normalized form carries the `cache_control` marker
iff the model id is the legacy caching-capable identifier
`claude-3-5-sonnet-20241022` and the (uninterpreted) tokenizer reports at
least 1024 tokens for the text; this holds both for text items inside a
content-part list and for plain-string message content, and for any other
model id the marker is never set. -/
theorem cache_marker_iff (tok : String → Nat) (model_id : String) (it : Item)
    (ic : Nat) (ts : ℚ) (h : it.type = "text") :
    processItems tok model_id [it] ic ts
        = .ok ([.text it.text (cacheEligible tok model_id it.text)], ic, ts)
    ∧ (∀ role s, processMessage tok model_id ⟨role, .str s⟩ ic ts
        = .ok (⟨role, [.text s (cacheEligible tok model_id s)]⟩, ic, ts))
    ∧ (∀ text, cacheEligible tok model_id text = true ↔
        (model_id = "claude-3-5-sonnet-20241022" ∧ 1024 ≤ tok text)) := by
  refine ⟨?_, fun role s => rfl, fun text => ?_⟩
  · simp only [processItems, processItem, if_pos h]
    rfl
  · simp [cacheEligible, Bool.and_eq_true, beq_iff_eq, decide_eq_true_iff]

/-- C3 witness: a concrete text item and a non-caching model id. -/
theorem cache_marker_iff_w :
    processItems tokLen "m" [⟨"text", "hi", ""⟩] 0 0
        = .ok ([.text "hi" (cacheEligible tokLen "m" "hi")], 0, 0)
    ∧ (∀ role s, processMessage tokLen "m" ⟨role, .str s⟩ 0 0
        = .ok (⟨role, [.text s (cacheEligible tokLen "m" s)]⟩, 0, 0))
    ∧ (∀ text, cacheEligible tokLen "m" text = true ↔
        ("m" = "claude-3-5-sonnet-20241022" ∧ 1024 ≤ tokLen text)) :=
  cache_marker_iff tokLen "m" ⟨"text", "hi", ""⟩ 0 0 rfl

/-- C10: a content part whose type tag is neither `"text"` nor
`"image_url"` is silently dropped: processing the item list with it at the
head is the same computation as without it (same parts, no error, same
image count and size), and a message all of whose parts are unrecognized
normalizes to an empty content list. -/
theorem unrecognized_parts_dropped (tok : String → Nat) (model_id : String)
    (it : Item) (rest : List Item) (ic : Nat) (ts : ℚ)
    (h1 : it.type ≠ "text") (h2 : it.type ≠ "image_url") :
    processItems tok model_id (it :: rest) ic ts = processItems tok model_id rest ic ts
    ∧ (∀ its role, (∀ i ∈ its, i.type ≠ "text" ∧ i.type ≠ "image_url") →
        processMessage tok model_id ⟨role, .parts its⟩ ic ts = .ok (⟨role, []⟩, ic, ts)) := by
  constructor
  · simp only [processItems, processItem, if_neg h1, if_neg h2]
    cases hrec : processItems tok model_id rest ic ts with
    | error e => rfl
    | ok res => rfl
  · intro its role h
    simp [processMessage, processItems_unrecognized_nil tok model_id its ic ts h]

/-- C10 witness: an item tagged `"tool_use"` ahead of a text item, and a
message consisting only of unrecognized parts. -/
theorem unrecognized_parts_dropped_w :
    processItems tokLen "m" (⟨"tool_use", "", ""⟩ :: [⟨"text", "hi", ""⟩]) 0 0
        = processItems tokLen "m" [⟨"text", "hi", ""⟩] 0 0
    ∧ (∀ its role, (∀ i ∈ its, i.type ≠ "text" ∧ i.type ≠ "image_url") →
        processMessage tokLen "m" ⟨role, .parts its⟩ 0 0 = .ok (⟨role, []⟩, 0, 0)) :=
  unrecognized_parts_dropped tokLen "m" ⟨"tool_use", "", ""⟩ [⟨"text", "hi", ""⟩] 0 0
    (by decide) (by decide)

theorem sizeOfPart_nonneg (p : NPart) : 0 ≤ sizeOfPart p := by
  cases p <;> simp [sizeOfPart] <;> positivity

theorem itemEstSize_nonneg (it : Item) : 0 ≤ itemEstSize it := by
  unfold itemEstSize
  by_cases h : it.type = "image_url"
  · rw [if_pos h]
    cases hpi : process_image it.imageUrl with
    | ok p => exact sizeOfPart_nonneg p
    | error e => exact le_refl 0
  · rw [if_neg h]

theorem itemSizes_sum_nonneg (its : List Item) :
    0 ≤ (its.map itemEstSize).sum :=
  List.sum_nonneg (by
    intro x hx
    obtain ⟨it, _, rfl⟩ := List.mem_map.mp hx
    exact itemEstSize_nonneg it)

theorem msgSize_nonneg (m : Message) : 0 ≤ msgSize m := by
  unfold msgSize
  cases m.content with
  | parts its => exact itemSizes_sum_nonneg its
  | str s => exact le_refl 0

theorem msgSizes_sum_nonneg (msgs : List Message) :
    0 ≤ (msgs.map msgSize).sum :=
  List.sum_nonneg (by
    intro x hx
    obtain ⟨m, _, rfl⟩ := List.mem_map.mp hx
    exact msgSize_nonneg m)

theorem wf_process_image {u : String} (h : wfUrl u = true) :
    ∃ p, process_image u = .ok p := by
  unfold process_image
  by_cases hp : dataImagePrefix.isPrefixOf u.data
  · rw [if_pos hp]
    have hsome : (splitFirst ',' u.data).isSome = true := by
      unfold wfUrl at h
      simpa [hp] using h
    rcases Option.isSome_iff_exists.mp hsome with ⟨⟨mime, b64⟩, hs⟩
    rw [hs]
    exact ⟨_, rfl⟩
  · rw [if_neg hp]
    exact ⟨_, rfl⟩

theorem processItems_ok (tok : String → Nat) (model_id : String)
    (its : List Item) (ic : Nat) (ts : ℚ)
    (hwf : its.all wfItem = true)
    (hc : ic + (its.map itemCount).sum ≤ 5)
    (hs : ts + (its.map itemEstSize).sum ≤ IMAGE_SIZE_LIMIT) :
    processItems tok model_id its ic ts
      = .ok (its.filterMap (partOf tok model_id),
             ic + (its.map itemCount).sum, ts + (its.map itemEstSize).sum) := by
  induction its generalizing ic ts with
  | nil => simp [processItems]
  | cons it rest ih =>
    rw [List.all_cons, Bool.and_eq_true] at hwf
    obtain ⟨hit, hrest⟩ := hwf
    rw [List.map_cons, List.sum_cons] at hc hs
    by_cases ht : it.type = "text"
    · have h0 : itemCount it = 0 := by simp [itemCount, ht]
      have h0s : itemEstSize it = 0 := by simp [itemEstSize, ht]
      rw [h0, zero_add] at hc
      rw [h0s, zero_add] at hs
      simp only [processItems, processItem, if_pos ht]
      rw [ih ic ts hrest hc hs]
      simp [List.filterMap_cons, partOf, ht, h0, h0s]
    · by_cases hi : it.type = "image_url"
      · have h1 : itemCount it = 1 := by simp [itemCount, hi]
        rw [h1] at hc
        have hic5 : ¬ 5 ≤ ic := by omega
        have hwfu : wfUrl it.imageUrl = true := by simpa [wfItem, hi] using hit
        obtain ⟨p, hpi⟩ := wf_process_image hwfu
        have hsz : itemEstSize it = sizeOfPart p := by
          simp [itemEstSize, hi, hpi]
        rw [hsz] at hs
        have hsrest := itemSizes_sum_nonneg rest
        have hts' : ¬ IMAGE_SIZE_LIMIT < ts + sizeOfPart p := by
          push_neg
          linarith
        simp only [processItems, processItem, if_neg ht, if_pos hi, if_neg hic5,
          hpi, if_neg hts']
        rw [ih (ic + 1) (ts + sizeOfPart p) hrest (by omega) (by linarith)]
        simp only [List.map_cons, List.sum_cons, h1, hsz, Option.toList,
          List.cons_append, Except.ok.injEq, Prod.mk.injEq]
        refine ⟨?_, by omega, by ring⟩
        simp [List.filterMap_cons, partOf, ht, hi, hpi, Except.toOption]
      · have h0 : itemCount it = 0 := by simp [itemCount, hi]
        have h0s : itemEstSize it = 0 := by simp [itemEstSize, hi]
        rw [h0, zero_add] at hc
        rw [h0s, zero_add] at hs
        simp only [processItems, processItem, if_neg ht, if_neg hi]
        rw [ih ic ts hrest hc hs]
        simp [List.filterMap_cons, partOf, ht, hi, h0, h0s]

theorem processItems_limit (tok : String → Nat) (model_id : String)
    (its : List Item) (ic : Nat) (ts : ℚ)
    (hwf : its.all wfItem = true) (hic : ic ≤ 5) (hts : ts ≤ IMAGE_SIZE_LIMIT)
    (h : 5 < ic + (its.map itemCount).sum
        ∨ IMAGE_SIZE_LIMIT < ts + (its.map itemEstSize).sum) :
    failsWithImageLimit (processItems tok model_id its ic ts) := by
  induction its generalizing ic ts with
  | nil =>
    simp only [List.map_nil, List.sum_nil, add_zero] at h
    rcases h with h | h
    · omega
    · linarith
  | cons it rest ih =>
    rw [List.all_cons, Bool.and_eq_true] at hwf
    obtain ⟨hit, hrest⟩ := hwf
    simp only [List.map_cons, List.sum_cons] at h
    by_cases ht : it.type = "text"
    · have h0 : itemCount it = 0 := by simp [itemCount, ht]
      have h0s : itemEstSize it = 0 := by simp [itemEstSize, ht]
      rw [h0, zero_add] at h
      rw [h0s, zero_add] at h
      simp only [processItems, processItem, if_pos ht]
      rcases ih ic ts hrest hic hts h with h' | h' <;>
        simp [failsWithImageLimit, h']
    · by_cases hi : it.type = "image_url"
      · by_cases hic5 : 5 ≤ ic
        · simp only [processItems, processItem, if_neg ht, if_pos hi, if_pos hic5]
          exact Or.inl rfl
        · have hwfu : wfUrl it.imageUrl = true := by simpa [wfItem, hi] using hit
          obtain ⟨p, hpi⟩ := wf_process_image hwfu
          have h1 : itemCount it = 1 := by simp [itemCount, hi]
          have hsz : itemEstSize it = sizeOfPart p := by
            simp [itemEstSize, hi, hpi]
          rw [h1] at h
          rw [hsz] at h
          by_cases hbig : IMAGE_SIZE_LIMIT < ts + sizeOfPart p
          · simp only [processItems, processItem, if_neg ht, if_pos hi,
              if_neg hic5, hpi, if_pos hbig]
            exact Or.inr rfl
          · simp only [processItems, processItem, if_neg ht, if_pos hi,
              if_neg hic5, hpi, if_neg hbig]
            have hrec := ih (ic + 1) (ts + sizeOfPart p) hrest
              (by omega) (by push_neg at hbig; exact hbig)
              (by rcases h with h | h
                  · exact Or.inl (by omega)
                  · exact Or.inr (by linarith))
            rcases hrec with h' | h' <;> simp [failsWithImageLimit, h']
      · have h0 : itemCount it = 0 := by simp [itemCount, hi]
        have h0s : itemEstSize it = 0 := by simp [itemEstSize, hi]
        rw [h0, zero_add] at h
        rw [h0s, zero_add] at h
        simp only [processItems, processItem, if_neg ht, if_neg hi]
        rcases ih ic ts hrest hic hts h with h' | h' <;>
          simp [failsWithImageLimit, h']

theorem processMessages_ok (tok : String → Nat) (model_id : String)
    (msgs : List Message) (ic : Nat) (ts : ℚ)
    (hwf : msgs.all wfMessage = true)
    (hc : ic + (msgs.map msgCount).sum ≤ 5)
    (hs : ts + (msgs.map msgSize).sum ≤ IMAGE_SIZE_LIMIT) :
    processMessages tok model_id msgs ic ts
      = .ok (msgs.map (nmsgOf tok model_id), ic + (msgs.map msgCount).sum,
             ts + (msgs.map msgSize).sum) := by
  induction msgs generalizing ic ts with
  | nil => simp [processMessages]
  | cons m rest ih =>
    rw [List.all_cons, Bool.and_eq_true] at hwf
    obtain ⟨hm, hrest⟩ := hwf
    rw [List.map_cons, List.sum_cons] at hc hs
    cases hcont : m.content with
    | str s =>
      have h0 : msgCount m = 0 := by simp [msgCount, hcont]
      have h0s : msgSize m = 0 := by simp [msgSize, hcont]
      rw [h0, zero_add] at hc
      rw [h0s, zero_add] at hs
      simp only [processMessages, processMessage, hcont]
      rw [ih ic ts hrest hc hs]
      simp [nmsgOf, hcont, h0, h0s]
    | parts its =>
      have hwfits : its.all wfItem = true := by simpa [wfMessage, hcont] using hm
      have hcnt : msgCount m = (its.map itemCount).sum := by simp [msgCount, hcont]
      have hsz : msgSize m = (its.map itemEstSize).sum := by simp [msgSize, hcont]
      rw [hcnt] at hc
      rw [hsz] at hs
      have hsrest := msgSizes_sum_nonneg rest
      have hcitems : ic + (its.map itemCount).sum ≤ 5 := by omega
      have hsitems : ts + (its.map itemEstSize).sum ≤ IMAGE_SIZE_LIMIT := by linarith
      simp only [processMessages, processMessage, hcont,
        processItems_ok tok model_id its ic ts hwfits hcitems hsitems,
        ih (ic + (its.map itemCount).sum) (ts + (its.map itemEstSize).sum) hrest
          (by omega) (by linarith)]
      simp only [List.map_cons, List.sum_cons, hcnt, hsz, Except.ok.injEq,
        Prod.mk.injEq]
      refine ⟨?_, by omega, by ring⟩
      simp [nmsgOf, hcont]

theorem processMessages_limit (tok : String → Nat) (model_id : String)
    (msgs : List Message) (ic : Nat) (ts : ℚ)
    (hwf : msgs.all wfMessage = true) (hic : ic ≤ 5) (hts : ts ≤ IMAGE_SIZE_LIMIT)
    (h : 5 < ic + (msgs.map msgCount).sum
        ∨ IMAGE_SIZE_LIMIT < ts + (msgs.map msgSize).sum) :
    failsWithImageLimit (processMessages tok model_id msgs ic ts) := by
  induction msgs generalizing ic ts with
  | nil =>
    simp only [List.map_nil, List.sum_nil, add_zero] at h
    rcases h with h | h
    · omega
    · linarith
  | cons m rest ih =>
    rw [List.all_cons, Bool.and_eq_true] at hwf
    obtain ⟨hm, hrest⟩ := hwf
    simp only [List.map_cons, List.sum_cons] at h
    cases hcont : m.content with
    | str s =>
      have h0 : msgCount m = 0 := by simp [msgCount, hcont]
      have h0s : msgSize m = 0 := by simp [msgSize, hcont]
      rw [h0, zero_add] at h
      rw [h0s, zero_add] at h
      simp only [processMessages, processMessage, hcont]
      rcases ih ic ts hrest hic hts h with h' | h' <;>
        simp [failsWithImageLimit, h']
    | parts its =>
      have hwfits : its.all wfItem = true := by simpa [wfMessage, hcont] using hm
      have hcnt : msgCount m = (its.map itemCount).sum := by simp [msgCount, hcont]
      have hsz : msgSize m = (its.map itemEstSize).sum := by simp [msgSize, hcont]
      rw [hcnt] at h
      rw [hsz] at h
      by_cases hforced : 5 < ic + (its.map itemCount).sum
          ∨ IMAGE_SIZE_LIMIT < ts + (its.map itemEstSize).sum
      · have hfa := processItems_limit tok model_id its ic ts hwfits hic hts hforced
        simp only [processMessages, processMessage, hcont]
        rcases hfa with h' | h' <;> simp [failsWithImageLimit, h']
      · push_neg at hforced
        obtain ⟨hc1, hs1⟩ := hforced
        simp only [processMessages, processMessage, hcont,
          processItems_ok tok model_id its ic ts hwfits hc1 hs1]
        have hrec := ih (ic + (its.map itemCount).sum)
          (ts + (its.map itemEstSize).sum) hrest hc1 hs1
          (by rcases h with h | h
              · exact Or.inl (by omega)
              · exact Or.inr (by linarith))
        rcases hrec with h' | h' <;> simp [failsWithImageLimit, h']

/-- C2: under the spec's data model (image URLs either parseable data URIs
or remote URLs), normalization fails with one of the two image-limit
errors iff the input has more than 5 image parts, or the cumulative
estimated size (base64 payload length × 3/4 per inline image, 0 per
URL-sourced image) exceeds 100 MiB: exactly 5 images pass the (inclusive)
count bound and a total of exactly 100 MiB passes the (exclusive) size
bound, and on violation the whole normalization aborts with an error, so
no partial payload is returned. -/
theorem image_limits_iff (tok : String → Nat) (model_id : String)
    (msgs : List Message) (hwf : WFMessages msgs) :
    failsWithImageLimit (processMessages tok model_id msgs 0 0) ↔
      (5 < imageCount msgs ∨ IMAGE_SIZE_LIMIT < totalImageSize msgs) := by
  constructor
  · intro hfail
    by_contra hno
    push_neg at hno
    obtain ⟨h1, h2⟩ := hno
    have hok := processMessages_ok tok model_id msgs 0 0 hwf
      (by rw [zero_add]; exact h1) (by rw [zero_add]; exact h2)
    rcases hfail with h' | h' <;> rw [hok] at h' <;> simp at h'
  · intro h
    apply processMessages_limit tok model_id msgs 0 0 hwf (by omega)
      (by norm_num [IMAGE_SIZE_LIMIT])
    rcases h with h | h
    · exact Or.inl (by rw [zero_add]; exact h)
    · exact Or.inr (by rw [zero_add]; exact h)

/-- C2 witness: the well-formedness hypothesis discharged on a concrete
six-image message list. -/
theorem image_limits_iff_w :
    failsWithImageLimit (processMessages tokLen "m" msgs6 0 0) ↔
      (5 < imageCount msgs6 ∨ IMAGE_SIZE_LIMIT < totalImageSize msgs6) :=
  image_limits_iff tokLen "m" msgs6 rfl

theorem processEvents_wf (s : List SSEEvent) (hwf : WFStream s) :
    processEvents s = ((textsOf s).map JValue.str, none) := by
  induction s with
  | nil => rfl
  | cons e rest ih =>
    rw [WFStream, List.all_cons, Bool.and_eq_true] at hwf
    obtain ⟨he, hrest⟩ := hwf
    have ih' := ih hrest
    obtain ⟨od⟩ := e
    cases od with
    | none => simp [classify] at he
    | some d =>
      rcases hk : classifyD d with _ | k
      · simp [classify, hk] at he
      · cases k with
        | frag t =>
          have hea := eventAction_frag hk
          simp only [processEvents, hea, textsOf, classify, hk]
          rw [ih']
          simp
        | stop =>
          have hea := eventAction_stop hk
          simp only [processEvents, hea, textsOf, classify, hk]
          simp
        | other =>
          have hea := eventAction_other hk
          simp only [processEvents, hea, textsOf, classify, hk]
          exact ih'

/-- C4: on the synthetic event stream `content_block_start("Hello")`,
`content_block_delta(" world")`, `message_stop`, the streaming loop yields
exactly `["Hello", " world"]` in order and terminates cleanly; in general,
events of any other type are ignored, `message_stop` ends the sequence,
and on a well-formed stream the fragments emitted are exactly the texts
the events carry, in order — so their concatenation is the full response
text. -/
theorem stream_fragments_spec :
    processEvents helloStream = ([.str "Hello", .str " world"], none)
    ∧ (∀ e rest, classify e = some .other →
        processEvents (e :: rest) = processEvents rest)
    ∧ (∀ e rest, classify e = some .stop → processEvents (e :: rest) = ([], none))
    ∧ (∀ s, WFStream s → processEvents s = ((textsOf s).map JValue.str, none)) := by
  refine ⟨rfl, ?_, ?_, processEvents_wf⟩
  · intro e rest h
    obtain ⟨od⟩ := e
    cases od with
    | none => rfl
    | some d =>
      have hd : classifyD d = some .other := by simpa [classify] using h
      simp [processEvents, eventAction_other hd]
  · intro e rest h
    obtain ⟨od⟩ := e
    cases od with
    | none => simp [classify] at h
    | some d =>
      have hd : classifyD d = some .stop := by simpa [classify] using h
      simp [processEvents, eventAction_stop hd]

/-- C4 witness: the well-formedness hypothesis discharged on the concrete
`helloStream`. -/
theorem stream_fragments_spec_w :
    processEvents helloStream = ((textsOf helloStream).map JValue.str, none) :=
  stream_fragments_spec.2.2.2 helloStream rfl

/-- C5 counterexample: in `badStream`, the second event's body is valid
JSON (`[]`) but lacks the expected `"type"` field; the claim requires it
to be skipped, with `"Hello"` and `" world"` both yielded and no error —
but subscripting a list with a string raises an uncaught `TypeError`, so
the stream dies after `"Hello"` and the later valid event never yields. -/
theorem malformed_event_typeerror_cex :
    processEvents badStream ≠ ([.str "Hello", .str " world"], none) := by
  intro h
  have h1 : processEvents badStream
      = ([.str "Hello"],
         some (.typeError "list indices must be integers or slices, not str")) := rfl
  rw [h1] at h
  simp at h

/-- C5 (amended): a stream event whose body does not parse as JSON, or
whose body is a JSON object missing an expected field (the type tag, the
content block, the block's text, or the delta's text), is skipped without
terminating the stream — processing the rest of the stream is unaffected,
so every subsequent well-formed event still yields its fragment.  (A body
that is valid JSON but not an object instead raises an uncaught
`TypeError`, per the counterexample.) -/
theorem malformed_event_skip (rest : List SSEEvent)
    (fs cb dl : List (String × JValue)) :
    processEvents (⟨none⟩ :: rest) = processEvents rest
    ∧ (fs.lookup "type" = none →
        processEvents (⟨some (.obj fs)⟩ :: rest) = processEvents rest)
    ∧ (fs.lookup "type" = some (.str "content_block_start") →
        fs.lookup "content_block" = none →
        processEvents (⟨some (.obj fs)⟩ :: rest) = processEvents rest)
    ∧ (fs.lookup "type" = some (.str "content_block_start") →
        fs.lookup "content_block" = some (.obj cb) →
        cb.lookup "text" = none →
        processEvents (⟨some (.obj fs)⟩ :: rest) = processEvents rest)
    ∧ (fs.lookup "type" = some (.str "content_block_delta") →
        fs.lookup "delta" = none →
        processEvents (⟨some (.obj fs)⟩ :: rest) = processEvents rest)
    ∧ (fs.lookup "type" = some (.str "content_block_delta") →
        fs.lookup "delta" = some (.obj dl) →
        dl.lookup "text" = none →
        processEvents (⟨some (.obj fs)⟩ :: rest) = processEvents rest) := by
  refine ⟨rfl, ?_, ?_, ?_, ?_, ?_⟩
  · intro h1
    have hea : eventAction (.obj fs) = .error (.keyError "type") := by
      simp [eventAction, JValue.subscriptStr, h1]
    simp [processEvents, hea]
  · intro h1 h2
    have hea : eventAction (.obj fs) = .error (.keyError "content_block") := by
      simp [eventAction, JValue.subscriptStr, h1, h2, JValue.isStr]
    simp [processEvents, hea]
  · intro h1 h2 h3
    have hea : eventAction (.obj fs) = .error (.keyError "text") := by
      simp [eventAction, JValue.subscriptStr, h1, h2, h3, JValue.isStr]
    simp [processEvents, hea]
  · intro h1 h2
    have hea : eventAction (.obj fs) = .error (.keyError "delta") := by
      simp [eventAction, JValue.subscriptStr, h1, h2, JValue.isStr]
    simp [processEvents, hea]
  · intro h1 h2 h3
    have hea : eventAction (.obj fs) = .error (.keyError "text") := by
      simp [eventAction, JValue.subscriptStr, h1, h2, h3, JValue.isStr]
    simp [processEvents, hea]

/-- C5 witness: a non-JSON event and an object event missing its
`content_block` field, both skipped ahead of the hello stream. -/
theorem malformed_event_skip_w :
    processEvents (⟨none⟩ :: helloStream) = processEvents helloStream
    ∧ processEvents (⟨some (.obj [("type", .str "content_block_start")])⟩ :: helloStream)
        = processEvents helloStream :=
  ⟨(malformed_event_skip helloStream [("type", .str "content_block_start")] [] []).1,
   (malformed_event_skip helloStream
      [("type", .str "content_block_start")] [] []).2.2.1 rfl rfl⟩

/-- C6: the non-streaming path performs its one exchange against the
provider's response: on any non-success status it fails with the provider
error carrying status and body; on status 200 it returns the text of the
first content block, or the empty string when the body has no `content`
key or an empty `content` list. -/
theorem get_completion_spec (resp : HttpResponse) :
    (resp.status ≠ 200 →
        get_completion resp = .error (.providerError resp.status resp.text))
    ∧ (∀ fs b xs t, resp.status = 200 → resp.json = some (.obj fs) →
        fs.lookup "content" = some (.arr (b :: xs)) →
        b.subscriptStr "text" = .ok t →
        get_completion resp = .ok t)
    ∧ (∀ fs, resp.status = 200 → resp.json = some (.obj fs) →
        fs.lookup "content" = none →
        get_completion resp = .ok (.str ""))
    ∧ (∀ fs, resp.status = 200 → resp.json = some (.obj fs) →
        fs.lookup "content" = some (.arr []) →
        get_completion resp = .ok (.str "")) := by
  refine ⟨?_, ?_, ?_, ?_⟩
  · intro h
    simp [get_completion, h]
  · intro fs b xs t h200 hjson hlook htext
    simp [get_completion, h200, hjson, JValue.containsKey, lookup_some_any hlook,
      JValue.subscriptStr, hlook, JValue.truthy, JValue.subscriptNat]
    exact htext
  · intro fs h200 hjson hlook
    simp [get_completion, h200, hjson, JValue.containsKey, lookup_none_any hlook]
  · intro fs h200 hjson hlook
    simp [get_completion, h200, hjson, JValue.containsKey, lookup_some_any hlook,
      JValue.subscriptStr, hlook, JValue.truthy]

/-- C6 witness: a 500 response and a well-formed 200 response. -/
theorem get_completion_spec_w :
    get_completion resp500 = .error (.providerError resp500.status resp500.text)
    ∧ get_completion resp200 = .ok (.str "hi") :=
  ⟨(get_completion_spec resp500).1 (by decide),
   (get_completion_spec resp200).2.1
     [("content", .arr [.obj [("type", .str "text"), ("text", .str "hi")]])]
     (.obj [("type", .str "text"), ("text", .str "hi")]) [] (.str "hi")
     rfl rfl rfl rfl⟩

/-- C7: the built payload carries the `system` key iff a system message was
extracted from the head of the list and its text is non-empty; when the
first message has role `system` it never appears in the normalized message
list (the messages of the payload come from the tail alone), and its text
shows up only as the payload's separate `system` field. -/
theorem system_key_spec (tok : String → Nat) (model_id : String)
    (msgs : List Message) (body : Dict) :
    (∀ p, buildPayload tok model_id msgs body = .ok p →
        p.system = (match (pop_system_message msgs).1 with
          | some s => if s = "" then none else some s
          | none => none)
        ∧ ((∃ s, p.system = some s) ↔
            (∃ s, (pop_system_message msgs).1 = some s ∧ s ≠ "")))
    ∧ (∀ m rest, msgs = m :: rest → m.role = "system" →
        ∀ p, buildPayload tok model_id msgs body = .ok p →
          (∃ st, processMessages tok model_id rest 0 0 = .ok st ∧ p.messages = st.1)
          ∧ p.system = (if contentText m.content = "" then none
              else some (contentText m.content))) := by
  constructor
  · intro p hp
    simp only [buildPayload] at hp
    rcases hproc : processMessages tok model_id (pop_system_message msgs).2 0 0
        with e | ⟨pm, ic, ts⟩
    · rw [hproc] at hp
      exact absurd hp (by simp)
    · rw [hproc] at hp
      simp only [Except.ok.injEq] at hp
      subst hp
      refine ⟨rfl, ?_⟩
      rcases hsm : (pop_system_message msgs).1 with _ | s
      · simp [hsm]
      · by_cases hs : s = "" <;> simp [hsm, hs]
  · intro m rest hm hrole p hp
    subst hm
    simp only [buildPayload, pop_system_message, if_pos hrole] at hp
    rcases hproc : processMessages tok model_id rest 0 0 with e | ⟨pm, ic, ts⟩
    · rw [hproc] at hp
      exact absurd hp (by simp)
    · rw [hproc] at hp
      simp only [Except.ok.injEq] at hp
      subst hp
      exact ⟨⟨(pm, ic, ts), rfl, rfl⟩, by
        rcases hs : decide (contentText m.content = "") <;> simp_all⟩

/-- C7 witness: a concrete list with a leading system message. -/
theorem system_key_spec_w :
    buildPayload tokLen "m" msgs7 [] = .ok payload7
    ∧ payload7.system = some "be nice"
    ∧ (∃ st, processMessages tokLen "m" [⟨"user", .str "hi"⟩] 0 0 = .ok st
        ∧ payload7.messages = st.1) := by
  have h2 := (system_key_spec tokLen "m" msgs7 []).2 ⟨"system", .str "be nice"⟩
      [⟨"user", .str "hi"⟩] rfl rfl payload7 rfl
  exact ⟨rfl, by simpa [contentText] using h2.2, h2.1⟩

/-- C9: `pipe` mutates the caller's options dict exactly by removing the
keys `"user"`, `"chat_id"` and `"title"` when present: the dict it leaves
behind is `popKeys body`, in which those three keys are absent and every
other key is bound exactly as before. -/
theorem body_keys_frame (tok : String → Nat) (um model_id : String)
    (msgs : List Message) (body : Dict) (resp : HttpResponse) (k : String) :
    (pipe tok um model_id msgs body resp).1 = popKeys body
    ∧ ((k = "user" ∨ k = "chat_id" ∨ k = "title") →
        List.lookup k (popKeys body) = none)
    ∧ (k ≠ "user" → k ≠ "chat_id" → k ≠ "title" →
        List.lookup k (popKeys body) = List.lookup k body) :=
  ⟨rfl, lookup_popKeys_popped body k, lookup_popKeys_other body k⟩

/-- C9 witness: a concrete options dict with one popped and one kept key. -/
theorem body_keys_frame_w :
    (pipe tokLen "hi" "m" [] [("user", .str "u"), ("temperature", .num 1)]
        ⟨200, "", none, []⟩).1 = popKeys [("user", .str "u"), ("temperature", .num 1)]
    ∧ List.lookup "user" (popKeys [("user", .str "u"), ("temperature", .num 1)]) = none
    ∧ List.lookup "temperature" (popKeys [("user", .str "u"), ("temperature", .num 1)])
        = List.lookup "temperature" [("user", .str "u"), ("temperature", .num 1)] :=
  ⟨(body_keys_frame tokLen "hi" "m" [] [("user", .str "u"), ("temperature", .num 1)]
      ⟨200, "", none, []⟩ "user").1,
   (body_keys_frame tokLen "hi" "m" [] [("user", .str "u"), ("temperature", .num 1)]
      ⟨200, "", none, []⟩ "user").2.1 (Or.inl rfl),
   (body_keys_frame tokLen "hi" "m" [] [("user", .str "u"), ("temperature", .num 1)]
      ⟨200, "", none, []⟩ "temperature").2.2 (by decide) (by decide) (by decide)⟩

set_option maxRecDepth 8192 in
/-- C8 counterexample: on the legacy caching model, a plain-string message
whose text the tokenizer values at ≥ 1024 tokens is NOT wrapped verbatim —
the single text part additionally carries the cache marker, refuting
"nothing added, for every model id". -/
theorem plain_string_cache_marker_cex :
    processMessages tokLen "claude-3-5-sonnet-20241022" [⟨"user", .str aText⟩] 0 0
      ≠ .ok ([⟨"user", [.text aText false]⟩], 0, 0) := by
  intro h
  have h1 : processMessages tokLen "claude-3-5-sonnet-20241022"
      [⟨"user", .str aText⟩] 0 0
      = .ok ([⟨"user", [.text aText true]⟩], 0, 0) := rfl
  rw [h1] at h
  simp at h

/-- C8 (amended): for every model id other than the legacy caching model
`claude-3-5-sonnet-20241022`, normalization maps each plain-string message
to the same role with its content wrapped as a single text part carrying
the same text and no cache marker, with nothing else added; on the legacy
model the wrap additionally carries the cache marker when the token count
reaches 1024 (per the counterexample). -/
theorem plain_string_normalization (tok : String → Nat) (model_id : String)
    (msgs : List Message) (ic : Nat) (ts : ℚ)
    (hstr : ∀ m ∈ msgs, ∃ s, m.content = .str s)
    (hm : model_id ≠ "claude-3-5-sonnet-20241022") :
    processMessages tok model_id msgs ic ts
      = .ok (msgs.map (fun m => ⟨m.role, [.text (contentText m.content) false]⟩),
             ic, ts) := by
  induction msgs with
  | nil => simp [processMessages]
  | cons m rest ih =>
    obtain ⟨s, hs⟩ := hstr m (List.mem_cons_self m rest)
    have hb : (model_id == "claude-3-5-sonnet-20241022") = false :=
      beq_eq_false_iff_ne.mpr hm
    have hce : cacheEligible tok model_id s = false := by
      simp [cacheEligible, hb]
    simp only [processMessages, processMessage, hs, hce]
    rw [ih (fun m' hm' => hstr m' (List.mem_cons_of_mem m hm'))]
    simp [contentText, hs]

/-- C8 witness: a plain-string message on a non-caching model. -/
theorem plain_string_normalization_w :
    processMessages tokLen "m" [⟨"user", .str "hi"⟩] 0 0
      = .ok ([⟨"user", [.text "hi" false]⟩], 0, 0) := by
  have h := plain_string_normalization tokLen "m" [⟨"user", .str "hi"⟩] 0 0
    (by intro m hm
        rw [List.mem_singleton] at hm
        subst hm
        exact ⟨"hi", rfl⟩)
    (by decide)
  simpa [contentText] using h

/-- C1 counterexample: with streaming requested and the provider answering
status 500, `pipe` returns the generator without raising, and draining it
raises the provider error to the consumer instead of producing an
`"Error: ..."` string — an exception escapes to the invoker. -/
theorem pipe_stream_error_escapes_cex :
    (drainRet resp500
      (pipe tokLen "hi" "claude-3-7-sonnet-latest" [] bodyStream resp500).2).2
      ≠ none := by
  intro h
  have h1 : (drainRet resp500
      (pipe tokLen "hi" "claude-3-7-sonnet-latest" [] bodyStream resp500).2).2
      = some (.providerError 500 "Internal Server Error") := rfl
  rw [h1] at h
  simp at h

/-- C1 (amended): every error raised while building the payload
(normalization included) is caught by `pipe` and converted to the string
`"Error: <message>"` on both paths, and on the non-streaming path every
execution error (e.g. the provider error) is likewise caught, so the
non-streaming invocation always returns a plain value; on the streaming
path, however, `pipe` only creates the generator inside the `try` block,
and an error raised while the caller drains it escapes to the invoker
(per the counterexample). -/
theorem pipe_top_level_error_handling (tok : String → Nat)
    (um model_id : String) (msgs : List Message) (body : Dict)
    (resp : HttpResponse) :
    (∀ e, buildPayload tok model_id msgs (popKeys body) = .error e →
        (pipe tok um model_id msgs body resp).2
          = .val (.str ("Error: " ++ e.pyStr)))
    ∧ (((popKeys body).get "stream" (.bool false)).truthy = false →
        ∃ v, (pipe tok um model_id msgs body resp).2 = .val v)
    ∧ (∀ p e, ((popKeys body).get "stream" (.bool false)).truthy = false →
        buildPayload tok model_id msgs (popKeys body) = .ok p →
        get_completion resp = .error e →
        (pipe tok um model_id msgs body resp).2
          = .val (.str ("Error: " ++ e.pyStr))) := by
  refine ⟨?_, ?_, ?_⟩
  · intro e he
    simp [pipe, he]
  · intro hstream
    cases hb : buildPayload tok model_id msgs (popKeys body) with
    | error e => exact ⟨.str ("Error: " ++ e.pyStr), by simp [pipe, hb]⟩
    | ok payload =>
      cases hg : get_completion resp with
      | error e => exact ⟨.str ("Error: " ++ e.pyStr), by simp [pipe, hb, hstream, hg]⟩
      | ok v => exact ⟨v, by simp [pipe, hb, hstream, hg]⟩
  · intro p e hstream hb hg
    simp [pipe, hb, hstream, hg]

/-- C1 witness: a non-streaming invocation always hands back a value, and
with the provider failing it is the caught `"Error: ..."` string. -/
theorem pipe_top_level_error_handling_w :
    (∃ v, (pipe tokLen "hi" "m" [] [] resp500).2 = .val v)
    ∧ (pipe tokLen "hi" "m" [] [] resp500).2
        = .val (.str ("Error: "
            ++ (PyErr.providerError 500 "Internal Server Error").pyStr)) :=
  ⟨(pipe_top_level_error_handling tokLen "hi" "m" [] [] resp500).2.1 rfl,
   (pipe_top_level_error_handling tokLen "hi" "m" [] [] resp500).2.2 payload0
     (.providerError 500 "Internal Server Error") rfl rfl rfl⟩

end AnthropicPipeline
